import Mathlib

/-!
Verification of the acquisition-and-retention core of plotGUI_offline.py.

The Python source is shallowly embedded: each Python function that the
claims mention is translated into a Lean definition of the same name.
Python strings are Lean `String`s, epoch seconds are `ℤ`, Python floats
are modelled exactly by `PyFloat` (a rational together with the special
values inf, -inf and nan; the model is exact where the claims look at
values, since every numeric literal involved is short).  Python code that
can raise an uncaught exception is modelled with `Option`: `none` means
the call raised.
-/

namespace PlotGUI

/-! ### Python string primitives -/

/-- The whitespace characters stripped by Python's str.rstrip() / int() /
float() (ASCII subset; the claims involve no exotic whitespace). -/
def isPyWS (c : Char) : Bool :=
  c == ' ' || c == '\t' || c == '\n' || c == '\r' || c == '\x0b' || c == '\x0c'

/-- Python str.rstrip(): drop trailing whitespace. -/
def pyRstrip (s : String) : String :=
  String.mk ((s.data.reverse.dropWhile isPyWS).reverse)

/-- Python str.replace(" ", ""): remove every space character. -/
def stripSpaces (s : String) : String :=
  String.mk (s.data.filter (fun c => c != ' '))

/-- Helper for `pySplitComma`: accumulate the current field (reversed). -/
def splitCommaGo : List Char → List Char → List String
  | [], acc => [String.mk acc.reverse]
  | c :: rest, acc =>
    if c = ',' then String.mk acc.reverse :: splitCommaGo rest []
    else splitCommaGo rest (c :: acc)

/-- Python str.split(","): split on every comma; "".split(",") == [""]. -/
def pySplitComma (s : String) : List String :=
  splitCommaGo s.data []

/-- Value of a list of decimal digit characters. -/
def digitsToNat (cs : List Char) : ℕ :=
  cs.foldl (fun n c => 10 * n + (c.toNat - '0'.toNat)) 0

/-! ### Python int() and float() -/

/-- Strip leading and trailing whitespace from a character list. -/
def stripWS (cs : List Char) : List Char :=
  ((cs.dropWhile isPyWS).reverse.dropWhile isPyWS).reverse

/-- Split off an optional leading sign; returns the sign (as ±1) and the
rest.  Shared by the int() and float() models. -/
def takeSign : List Char → ℤ × List Char
  | '+' :: rest => (1, rest)
  | '-' :: rest => (-1, rest)
  | cs => (1, cs)

/-- Python int(str): optional surrounding whitespace, optional sign, then a
nonempty run of decimal digits (underscore separators are not modelled;
none occur in the data format).  `none` models a raised ValueError. -/
def pyIntOfString (s : String) : Option ℤ :=
  let cs := stripWS s.data
  let (sign, body) := takeSign cs
  if body ≠ [] ∧ body.all Char.isDigit then
    some (sign * (digitsToNat body : ℤ))
  else
    none

/-- A Python float object: either a finite value (modelled exactly as a
rational) or one of the special values.  The claims only compare short
decimal literals, for which the exact-rational model agrees with IEEE
doubles. -/
inductive PyFloat where
  | finite (q : ℚ)
  | inf
  | neginf
  | nan
deriving DecidableEq, Repr

/-- Parse the decimal body of a float literal (after sign removal):
digits, an optional fractional part, and an optional exponent.  Returns
the concatenated digit value together with the net power-of-ten shift, so
that the rational value is digits * 10 ^ shift. -/
def pyFloatBody (cs : List Char) : Option (ℕ × ℤ) :=
  let intPart := cs.takeWhile Char.isDigit
  let rest := cs.dropWhile Char.isDigit
  let (fracPart, rest2) :=
    match rest with
    | '.' :: r => (r.takeWhile Char.isDigit, r.dropWhile Char.isDigit)
    | _ => ([], rest)
  if intPart = [] ∧ fracPart = [] then none
  else
    let digits := digitsToNat (intPart ++ fracPart)
    let base : ℤ := -(fracPart.length : ℤ)
    match rest2 with
    | [] => some (digits, base)
    | e :: r3 =>
      if e = 'e' ∨ e = 'E' then
        let (esign, edigits) := takeSign r3
        if edigits ≠ [] ∧ edigits.all Char.isDigit then
          some (digits, base + esign * (digitsToNat edigits : ℤ))
        else none
      else none

/-- The rational m * 10 ^ shift, built with mkRat on integers. -/
def scaleRat (m : ℤ) (shift : ℤ) : ℚ :=
  if 0 ≤ shift then mkRat (m * 10 ^ shift.toNat) 1
  else mkRat m (10 ^ (-shift).toNat)

/-- Python float(str): optional surrounding whitespace, optional sign, then
either a case-insensitive inf/infinity/nan token or a decimal literal.
`none` models a raised ValueError. -/
def pyFloatOfString (s : String) : Option PyFloat :=
  let cs := stripWS s.data
  let (sign, body) := takeSign cs
  let low := body.map Char.toLower
  if low = "inf".data ∨ low = "infinity".data then
    some (if sign = 1 then PyFloat.inf else PyFloat.neginf)
  else if low = "nan".data then
    some PyFloat.nan
  else
    (pyFloatBody body).map (fun p => PyFloat.finite (scaleRat (sign * (p.1 : ℤ)) p.2))

/-- Python int(x) applied to a float object x: truncates toward zero;
raises (`none`) exactly on inf, -inf and nan. -/
def pyIntOfFloat : PyFloat → Option ℤ
  | PyFloat.finite q => some (if 0 ≤ q then ⌊q⌋ else ⌈q⌉)
  | PyFloat.inf => none
  | PyFloat.neginf => none
  | PyFloat.nan => none

/-! ### validateFileData (source lines 238-256)

The Python loop runs i over range(1, 8), reassigns data[i] = float(data[i])
and then applies int() to that float, returning False on the first failure
of either conversion. -/

/-- One iteration of the validation loop: data[i] = float(data[i]) must
succeed, and int() of the resulting float object must succeed. -/
def fieldConvOK (s : String) : Bool :=
  match pyFloatOfString s with
  | none => false
  | some v => (pyIntOfFloat v).isSome

/-- validateFileData: reject unless there are exactly 9 fields and each of
the fields at positions 1..7 survives float() followed by int(). -/
def validateFileData (data : List String) : Bool :=
  if data.length ≠ 9 then false
  else (List.range' 1 7).all (fun i => fieldConvOK (data.getD i ""))

/-! ### cleanFileData (source lines 223-236)

The file is modelled as its list of lines (without the trailing newline
that the file iterator yields; rstrip removes it anyway).  For each line
the code rstrips, splits on commas, converts data[0] with int() (an
uncaught ValueError if that fails, modelled as `none` for the whole call:
the rewrite never commits), and keeps the line when the record is younger
than the retention window and passes validateFileData.  `now` is the value
of int(time.time()) and `retention` is MAX_DATA_TIME * 60. -/

def cleanFileData : List String → ℤ → ℤ → Option (List String)
  | [], _, _ => some []
  | line :: rest, now, retention =>
    let l := pyRstrip line
    let data := pySplitComma l
    match pyIntOfString (data.getD 0 "") with
    | none => none
    | some ts =>
      if now - ts < retention then
        if validateFileData data then
          (cleanFileData rest now retention).map (fun out => l :: out)
        else cleanFileData rest now retention
      else cleanFileData rest now retention

/-! ### parseSerialData (source lines 190-215)

Modelled per received line.  The code rstrips the decoded line, removes
every space, splits on commas, and then inspects the first field:
the reset token causes a retried read, a digit-leading first field is data
(accepted only with exactly 8 fields, otherwise retried), and anything
else falls through (the function returns None).  Byte sequences that fail
UTF-8 decoding are below the string level of this model. -/

/-- Outcome of parseSerialData for one line: a decoded field list, a
retried read (reset token or malformed frame), or an ignored line. -/
inductive SerialResult where
  | record (fields : List String)
  | retry
  | skip
deriving DecidableEq, Repr

/-- The preprocessing pipeline applied to a received line:
data.rstrip().replace(" ", "").split(","). -/
def serialFields (line : String) : List String :=
  pySplitComma (stripSpaces (pyRstrip line))

/-- Python str.startswith(("0", ..., "9")): the string begins with an
ASCII digit. -/
def digitLeading (s : String) : Bool :=
  match s.data with
  | [] => false
  | c :: _ => c.isDigit

def parseSerialLine (line : String) : SerialResult :=
  let data := serialFields line
  if data.getD 0 "" = "ResetButtonPressed" then SerialResult.retry
  else if digitLeading (data.getD 0 "") then
    if data.length ≠ 8 then SerialResult.retry
    else SerialResult.record data
  else SerialResult.skip

/-! ### handleButtonData (source lines 321-352)

The registry is the buttonStates dict; its five entries are string
flags.  For each of the four actuator entries the code compares the
incoming field against the current entry and, only when they differ,
overwrites it and prints a transition message.  The four blocks are
identical up to names, factored here into `buttonStep`; the printed
messages are collected as the returned notification list.  data[4]..[7]
raise an uncaught IndexError when the (nonempty) list is shorter than 8,
modelled as `none`. -/

structure ButtonStates where
  pump : String
  aerator : String
  lights : String
  plug4 : String
  stop : String
deriving DecidableEq, Repr

/-- One `if buttonStates[k] != data[i]` block: the updated entry and the
emitted notifications. -/
def buttonStep (cur incoming onMsg offMsg : String) : String × List String :=
  if cur ≠ incoming then
    (incoming, [if incoming = "1" then onMsg else offMsg])
  else (cur, [])

def handleButtonData (bs : ButtonStates) (data : List String) :
    Option (ButtonStates × List String) :=
  if data.isEmpty then some (bs, [])
  else if data.length < 8 then none
  else
    let p := buttonStep bs.pump (data.getD 4 "") "Pump turned on" "Pump turned off"
    let a := buttonStep bs.aerator (data.getD 5 "") "Aerator turned on" "Aerator turned off"
    let l := buttonStep bs.lights (data.getD 6 "") "Lights turned on" "Lights turned off"
    let g := buttonStep bs.plug4 (data.getD 7 "") "Plug 4 turned on" "Plug 4 turned off"
    some ({ bs with pump := p.1, aerator := a.1, lights := l.1, plug4 := g.1 },
      p.2 ++ a.2 ++ l.2 ++ g.2)

/-! ### handlePlotData (source lines 355-388)

plotData is four parallel lists: timestamps (datetime objects, modelled
by their epoch seconds) and the three float value columns.  currentValues
holds the raw field strings.  The trim loop pops from the front of all
four lists while the head timestamp is strictly older than
MAX_DATA_TIME * 60 seconds and breaks at the first younger entry. -/

structure PlotData where
  t : List ℤ
  temp : List PyFloat
  ph : List PyFloat
  dox : List PyFloat
deriving DecidableEq, Repr

structure CurrentValues where
  temp : String
  ph : String
  dox : String
deriving DecidableEq, Repr

/-- The trim loop of handlePlotData (source lines 379-386): pop the head
of all four lists while int(time.time()) - head timestamp is strictly
greater than MAX_DATA_TIME * 60, breaking at the first entry that is not.
Structured on the timestamp column; the value columns are popped in
lockstep. -/
def trimPlotGo (now retention : ℤ) :
    List ℤ → List PyFloat → List PyFloat → List PyFloat → PlotData
  | [], a, b, c => ⟨[], a, b, c⟩
  | ts :: rest, a, b, c =>
    if now - ts > retention then trimPlotGo now retention rest a.tail b.tail c.tail
    else ⟨ts :: rest, a, b, c⟩

def trimPlot (now retention : ℤ) (pd : PlotData) : PlotData :=
  trimPlotGo now retention pd.t pd.temp pd.ph pd.dox

/-- handlePlotData.  `data` is the timestamped record (timestamp plus the
8 received fields).  int(data[0]) and the data[1]..[3] reads happen
outside the try block: their failure is an uncaught exception (`none`).
Inside the try block the timestamp is appended first, so a float() failure
on a value field leaves the timestamp column longer by one (a torn append)
and returns early without trimming — exactly what the source's
except-return does. -/
def handlePlotData (pd : PlotData) (cv : CurrentValues) (data : List String)
    (now retention : ℤ) : Option (PlotData × CurrentValues) :=
  if data.isEmpty then some (trimPlot now retention pd, cv)
  else if data.length < 4 then none
  else
    match pyIntOfString (data.getD 0 "") with
    | none => none
    | some ts =>
      let cv2 : CurrentValues := ⟨data.getD 1 "", data.getD 2 "", data.getD 3 ""⟩
      let pd0 : PlotData := { pd with t := pd.t ++ [ts] }
      match pyFloatOfString (data.getD 1 "") with
      | none => some (pd0, cv2)
      | some v1 =>
        let pd1 : PlotData := { pd0 with temp := pd0.temp ++ [v1] }
        match pyFloatOfString (data.getD 2 "") with
        | none => some (pd1, cv2)
        | some v2 =>
          let pd2 : PlotData := { pd1 with ph := pd1.ph ++ [v2] }
          match pyFloatOfString (data.getD 3 "") with
          | none => some (pd2, cv2)
          | some v3 =>
            let pd3 : PlotData := { pd2 with dox := pd2.dox ++ [v3] }
            some (trimPlot now retention pd3, cv2)

/-! ### Window Cache operation sequences (claims C4, C5)

The spec's Window Cache interface has two mutators: append (the tail
appends handlePlotData performs for a freshly decoded record) and
trimExpired (the trim loop).  A sequence of such calls is modelled as a
list of operations executed from the empty cache. -/

inductive CacheOp where
  | app (ts : ℤ) (v1 v2 v3 : PyFloat)
  | trim (now : ℤ)
deriving DecidableEq, Repr

/-- The wall-clock instant at which an operation happens: an append of a
record carries its receipt timestamp, a trim carries its now. -/
def opTime : CacheOp → ℤ
  | CacheOp.app ts _ _ _ => ts
  | CacheOp.trim now => now

def cacheStep (retention : ℤ) (pd : PlotData) : CacheOp → PlotData
  | CacheOp.app ts v1 v2 v3 =>
    ⟨pd.t ++ [ts], pd.temp ++ [v1], pd.ph ++ [v2], pd.dox ++ [v3]⟩
  | CacheOp.trim now => trimPlot now retention pd

def execCache (retention : ℤ) (pd : PlotData) (ops : List CacheOp) : PlotData :=
  ops.foldl (cacheStep retention) pd

def emptyPlot : PlotData := ⟨[], [], [], []⟩

/-- The timestamps of the appended history, in order. -/
def appT (ops : List CacheOp) : List ℤ :=
  ops.filterMap (fun o => match o with | CacheOp.app ts _ _ _ => some ts | _ => none)

def appV1 (ops : List CacheOp) : List PyFloat :=
  ops.filterMap (fun o => match o with | CacheOp.app _ v _ _ => some v | _ => none)

def appV2 (ops : List CacheOp) : List PyFloat :=
  ops.filterMap (fun o => match o with | CacheOp.app _ _ v _ => some v | _ => none)

def appV3 (ops : List CacheOp) : List PyFloat :=
  ops.filterMap (fun o => match o with | CacheOp.app _ _ _ v => some v | _ => none)

/-! ### Durable Log / Window Cache system (claim C1)

The acquisition loop (writeFileData, source lines 274-318) appends the
timestamped record to data.csv first and only then hands it to
handlePlotData, which appends it to the cache and trims; the compaction
loop (handleClean + cleanFileData) rewrites the log.  Records are
modelled as the timestamp paired with the 8 received fields; the log line
",".join(data) round-trips to exactly this list, so log membership of a
record is membership of the pair. -/

abbrev LogRec := ℤ × List String

/-- The serialized log line of a record, as split back into fields by
cleanFileData. -/
def recLine (r : LogRec) : List String := toString r.1 :: r.2

/-- cleanFileData's keep condition for one log line (source line 233). -/
def keepRec (now retention : ℤ) (r : LogRec) : Bool :=
  decide (now - r.1 < retention) && validateFileData (recLine r)

/-- handlePlotData appends the record to all four columns exactly when
float() succeeds on the three value fields (data[1]..[3], i.e. the first
three received fields). -/
def cacheAppendOk (fields : List String) : Bool :=
  (pyFloatOfString (fields.getD 0 "")).isSome &&
    (pyFloatOfString (fields.getD 1 "")).isSome &&
    (pyFloatOfString (fields.getD 2 "")).isSome

/-- The trim loop at record granularity. -/
def trimRecs (now retention : ℤ) : List LogRec → List LogRec
  | [] => []
  | r :: rest => if now - r.1 > retention then trimRecs now retention rest else r :: rest

structure SysState where
  log : List LogRec
  cache : List LogRec
  lastCompact : Option ℤ
deriving DecidableEq, Repr

inductive SysEvent where
  | recv (t : ℤ) (fields : List String)
  | compact (t : ℤ)
deriving DecidableEq, Repr

def evTime : SysEvent → ℤ
  | SysEvent.recv t _ => t
  | SysEvent.compact t => t

/-- One step of the system.  On receipt at time t the record is appended
to the log unconditionally, then appended to the cache (when the value
fields parse) and the cache is trimmed at now = t.  Compaction at time t
filters the log by cleanFileData's keep condition and records the
compaction time. -/
def sysStep (retention : ℤ) (s : SysState) : SysEvent → SysState
  | SysEvent.recv t fields =>
    let r : LogRec := (t, fields)
    { log := s.log ++ [r]
      cache := if cacheAppendOk fields then trimRecs t retention (s.cache ++ [r]) else s.cache
      lastCompact := s.lastCompact }
  | SysEvent.compact t =>
    { log := s.log.filter (keepRec t retention)
      cache := s.cache
      lastCompact := some t }

def execSys (retention : ℤ) (s : SysState) (evs : List SysEvent) : SysState :=
  evs.foldl (sysStep retention) s

def sysInit : SysState := ⟨[], [], none⟩

/-! ### Spec-side predicates

These two definitions state conditions in the declarative form the spec
uses, to be compared with the operational definitions above. -/

/-- The validation predicate as the spec words it (claim C3): exactly 9
fields, and each of the 8 payload fields (positions 1..8) is an integral
numeric value, i.e. parses as a float and also as an int. -/
def specIntegralValid (data : List String) : Bool :=
  decide (data.length = 9) &&
    (List.range' 1 8).all (fun i =>
      (pyFloatOfString (data.getD i "")).isSome &&
        (pyIntOfString (data.getD i "")).isSome)

/-- The per-line keep condition of compaction, stated declaratively over
an already-rstripped line: the timestamp field parses as an int, the
record is younger than the retention window, and the line passes
validateFileData. -/
def cleanKeepSpec (now retention : ℤ) (l : String) : Bool :=
  match pyIntOfString ((pySplitComma l).getD 0 "") with
  | none => false
  | some ts => decide (now - ts < retention) && validateFileData (pySplitComma l)

end PlotGUI

namespace PlotGUI

/-! ## Helper lemmas -/

lemma fieldConvOK_iff (s : String) :
    fieldConvOK s = true ↔ ∃ q, pyFloatOfString s = some (PyFloat.finite q) := by
  unfold fieldConvOK
  cases h : pyFloatOfString s with
  | none => simp
  | some v => cases v <;> simp [pyIntOfFloat]

lemma pyRstrip_idem (s : String) : pyRstrip (pyRstrip s) = pyRstrip s := by
  unfold pyRstrip
  simp [List.dropWhile_idempotent]

/-! ## Claim C3: log-scan validation -/

/-- Claim C3 states that a log line passes validation iff it has exactly
9 fields and all 8 payload fields are integral numeric values.  This is
false: the line "0,23.5,1,1,1,1,1,1,1" has the non-integral payload value
23.5 in position 1, yet validateFileData accepts it — the int() conversion
is applied to the float object produced by float(), and int() of a finite
float never fails. -/
theorem C3_counterexample :
    validateFileData (pySplitComma "0,23.5,1,1,1,1,1,1,1") = true ∧
    specIntegralValid (pySplitComma "0,23.5,1,1,1,1,1,1,1") = false := by
  constructor
  · decide
  · decide

/-- Claim C3 (amended): a log line passes validateFileData iff it has
exactly 9 comma-separated fields and each of the payload fields at
positions 1..7 parses as a finite float (integrality is not checked, and
the final payload field at position 8 is not checked at all). -/
theorem C3_validation (data : List String) :
    validateFileData data = true ↔
      data.length = 9 ∧
        ∀ i ∈ List.range' 1 7, ∃ q,
          pyFloatOfString (data.getD i "") = some (PyFloat.finite q) := by
  unfold validateFileData
  split
  · rename_i h
    simp only [Bool.false_eq_true, false_iff]
    intro hc
    exact h hc.1
  · rename_i h
    rw [List.all_eq_true]
    rw [not_not] at h
    simp only [h, true_and]
    constructor
    · intro ha i hi
      exact (fieldConvOK_iff _).mp (ha i hi)
    · intro ha i hi
      exact (fieldConvOK_iff _).mpr (ha i hi)

/-! ## Claim C6: decode field-count rule -/

/-- Claim C6: for a received line whose first comma-separated field (after
whitespace stripping and space removal) begins with a digit,
parseSerialData returns the decoded field list exactly when there are 8
fields, and retries the read (rather than failing) for any other field
count. -/
theorem C6_decode_field_count (line : String)
    (h : digitLeading ((serialFields line).getD 0 "") = true) :
    (parseSerialLine line = SerialResult.record (serialFields line) ↔
      (serialFields line).length = 8) ∧
    ((serialFields line).length ≠ 8 → parseSerialLine line = SerialResult.retry) := by
  have hne : (serialFields line).getD 0 "" ≠ "ResetButtonPressed" := by
    intro he
    rw [he] at h
    exact absurd h (by decide)
  unfold parseSerialLine
  simp only [if_neg hne, h, if_true]
  constructor
  · constructor
    · intro hr
      by_contra hlen
      rw [if_pos hlen] at hr
      exact SerialResult.noConfusion hr
    · intro hlen
      rw [if_neg (by simp [hlen])]
  · intro hlen
    rw [if_pos hlen]

/-- Witness for C6 at a concrete 8-field line. -/
theorem C6_witness :
    digitLeading ((serialFields "1,2,3,4,5,6,7,8").getD 0 "") = true ∧
    ((parseSerialLine "1,2,3,4,5,6,7,8" =
        SerialResult.record (serialFields "1,2,3,4,5,6,7,8") ↔
      (serialFields "1,2,3,4,5,6,7,8").length = 8) ∧
    ((serialFields "1,2,3,4,5,6,7,8").length ≠ 8 →
      parseSerialLine "1,2,3,4,5,6,7,8" = SerialResult.retry)) :=
  ⟨by decide, C6_decode_field_count "1,2,3,4,5,6,7,8" (by decide)⟩

/-! ## Claim C7: Scenario B -/

/-- Claim C7 states that the 7-field line "23.5,7.1,6.8,1,0,0,0" decodes
successfully.  It does not: parseSerialData requires exactly 8 fields on
a digit-leading line and retries the read on this one. -/
theorem C7_counterexample :
    parseSerialLine "23.5,7.1,6.8,1,0,0,0" = SerialResult.retry := by
  decide

/-- Claim C7 (amended): with the mandatory 8th wire field added (reserved,
ignored), the line "23.5,7.1,6.8,1,0,0,0,0" decodes to the stated record:
after the caller timestamps it, the registry reads pump="1" (on) and
aerator/lights/plug4 "0" (off), and the cache columns receive
temp = 23.5 (mkRat 47 2), pH = 7.1 (mkRat 71 10) and
dissolved oxygen = 6.8 (mkRat 34 5). -/
theorem C7_scenario_b :
    parseSerialLine "23.5,7.1,6.8,1,0,0,0,0" =
      SerialResult.record ["23.5", "7.1", "6.8", "1", "0", "0", "0", "0"] ∧
    handleButtonData ⟨"0", "0", "0", "0", "0"⟩
        ["1000", "23.5", "7.1", "6.8", "1", "0", "0", "0", "0"] =
      some (⟨"1", "0", "0", "0", "0"⟩, ["Pump turned on"]) ∧
    handlePlotData emptyPlot ⟨"0", "0", "0"⟩
        ["1000", "23.5", "7.1", "6.8", "1", "0", "0", "0", "0"] 1000 7200 =
      some (⟨[1000], [PyFloat.finite (mkRat 47 2)], [PyFloat.finite (mkRat 71 10)],
        [PyFloat.finite (mkRat 34 5)]⟩, ⟨"23.5", "7.1", "6.8"⟩) := by
  refine ⟨by decide, by decide, by decide⟩

/-! ## Claim C10: frame property of handleButtonData -/

/-- Claim C10: handleButtonData never changes the registry's stop entry —
device observations only touch pump, aerator, lights and plug4. -/
theorem C10_stop_unchanged (bs : ButtonStates) (data : List String)
    (bs2 : ButtonStates) (msgs : List String)
    (h : handleButtonData bs data = some (bs2, msgs)) :
    bs2.stop = bs.stop := by
  unfold handleButtonData at h
  split at h
  · rw [Option.some.injEq, Prod.mk.injEq] at h
    rw [← h.1]
  · split at h
    · exact Option.noConfusion h
    · rw [Option.some.injEq, Prod.mk.injEq] at h
      rw [← h.1]

/-- Witness for C10 at a concrete observation that turns the pump on. -/
theorem C10_witness :
    ButtonStates.stop ⟨"1", "0", "0", "0", "0"⟩ =
      ButtonStates.stop ⟨"0", "0", "0", "0", "0"⟩ :=
  C10_stop_unchanged ⟨"0", "0", "0", "0", "0"⟩
    ["1000", "23.5", "7.1", "6.8", "1", "0", "0", "0", "0"]
    ⟨"1", "0", "0", "0", "0"⟩ ["Pump turned on"] (by decide)

/-! ## Claim C9: edge-triggered registry update -/

lemma buttonStep_fst (c i onMsg offMsg : String) :
    (buttonStep c i onMsg offMsg).1 = i := by
  unfold buttonStep
  split
  · rfl
  · rename_i h
    exact not_not.mp h

lemma buttonStep_mem {c i onMsg offMsg m : String}
    (h : m ∈ (buttonStep c i onMsg offMsg).2) : m = onMsg ∨ m = offMsg := by
  unfold buttonStep at h
  split at h
  · simp only [List.mem_singleton] at h
    split at h
    · exact Or.inl h
    · exact Or.inr h
  · simp at h

lemma buttonStep_notified (c i onMsg offMsg : String) :
    (onMsg ∈ (buttonStep c i onMsg offMsg).2 ∨
      offMsg ∈ (buttonStep c i onMsg offMsg).2) ↔ c ≠ i := by
  unfold buttonStep
  split
  · rename_i h
    refine iff_of_true ?_ h
    split
    · exact Or.inl (List.mem_singleton_self _)
    · exact Or.inr (List.mem_singleton_self _)
  · rename_i h
    refine iff_of_false ?_ h
    simp

lemma buttonStep_not_mem {c i onMsg offMsg : String} (m : String)
    (h1 : m ≠ onMsg) (h2 : m ≠ offMsg) : m ∉ (buttonStep c i onMsg offMsg).2 := by
  intro hm
  rcases buttonStep_mem hm with rfl | rfl
  · exact h1 rfl
  · exact h2 rfl

/-- Membership of an actuator's own messages in the full notification list
reduces to membership in that actuator's own segment, provided the two
messages do not occur in the other three segments. -/
lemma notified_append (x y : String) (ms1 ms2 : List String)
    (hx : x ∉ ms2) (hy : y ∉ ms2) :
    (x ∈ ms1 ++ ms2 ∨ y ∈ ms1 ++ ms2) ↔ (x ∈ ms1 ∨ y ∈ ms1) := by
  simp only [List.mem_append]
  constructor
  · rintro ((h | h) | (h | h))
    · exact Or.inl h
    · exact absurd h hx
    · exact Or.inr h
    · exact absurd h hy
  · rintro (h | h)
    · exact Or.inl (Or.inl h)
    · exact Or.inr (Or.inl h)

lemma notified_append_right (x y : String) (ms1 ms2 : List String)
    (hx : x ∉ ms1) (hy : y ∉ ms1) :
    (x ∈ ms1 ++ ms2 ∨ y ∈ ms1 ++ ms2) ↔ (x ∈ ms2 ∨ y ∈ ms2) := by
  simp only [List.mem_append]
  constructor
  · rintro ((h | h) | (h | h))
    · exact absurd h hx
    · exact Or.inl h
    · exact absurd h hy
    · exact Or.inr h
  · rintro (h | h)
    · exact Or.inl (Or.inr h)
    · exact Or.inr (Or.inr h)

lemma notMemAppend {m : String} {xs ys : List String}
    (hx : m ∉ xs) (hy : m ∉ ys) : m ∉ xs ++ ys :=
  fun hm => (List.mem_append.mp hm).elim hx hy

/-- Claim C9: for every incoming decoded record (timestamp plus 8 fields,
so at least 8 entries) and every registry state, handleButtonData sets the
four actuator entries to the record's field values, and a transition
notification for an actuator is emitted iff the incoming value differs
from the registry's current value. -/
theorem C9_edge_triggered (bs : ButtonStates) (data : List String)
    (h : 8 ≤ data.length) :
    ∃ bs2 msgs, handleButtonData bs data = some (bs2, msgs) ∧
      bs2.pump = data.getD 4 "" ∧ bs2.aerator = data.getD 5 "" ∧
      bs2.lights = data.getD 6 "" ∧ bs2.plug4 = data.getD 7 "" ∧
      (("Pump turned on" ∈ msgs ∨ "Pump turned off" ∈ msgs) ↔
        bs.pump ≠ data.getD 4 "") ∧
      (("Aerator turned on" ∈ msgs ∨ "Aerator turned off" ∈ msgs) ↔
        bs.aerator ≠ data.getD 5 "") ∧
      (("Lights turned on" ∈ msgs ∨ "Lights turned off" ∈ msgs) ↔
        bs.lights ≠ data.getD 6 "") ∧
      (("Plug 4 turned on" ∈ msgs ∨ "Plug 4 turned off" ∈ msgs) ↔
        bs.plug4 ≠ data.getD 7 "") := by
  have hne : ¬data.isEmpty := by
    cases data with
    | nil => simp at h
    | cons a l => simp
  have hlen : ¬data.length < 8 := by omega
  unfold handleButtonData
  rw [if_neg hne, if_neg hlen]
  refine ⟨_, _, rfl, buttonStep_fst _ _ _ _, buttonStep_fst _ _ _ _,
    buttonStep_fst _ _ _ _, buttonStep_fst _ _ _ _, ?_, ?_, ?_, ?_⟩
  · simp only [List.append_assoc]
    rw [notified_append _ _ _ _
      (notMemAppend (buttonStep_not_mem _ (by decide) (by decide))
        (notMemAppend (buttonStep_not_mem _ (by decide) (by decide))
          (buttonStep_not_mem _ (by decide) (by decide))))
      (notMemAppend (buttonStep_not_mem _ (by decide) (by decide))
        (notMemAppend (buttonStep_not_mem _ (by decide) (by decide))
          (buttonStep_not_mem _ (by decide) (by decide))))]
    exact buttonStep_notified _ _ _ _
  · simp only [List.append_assoc]
    rw [notified_append_right _ _ _ _
      (buttonStep_not_mem _ (by decide) (by decide))
      (buttonStep_not_mem _ (by decide) (by decide)),
      notified_append _ _ _ _
      (notMemAppend (buttonStep_not_mem _ (by decide) (by decide))
        (buttonStep_not_mem _ (by decide) (by decide)))
      (notMemAppend (buttonStep_not_mem _ (by decide) (by decide))
        (buttonStep_not_mem _ (by decide) (by decide)))]
    exact buttonStep_notified _ _ _ _
  · simp only [List.append_assoc]
    rw [notified_append_right _ _ _ _
      (buttonStep_not_mem _ (by decide) (by decide))
      (buttonStep_not_mem _ (by decide) (by decide)),
      notified_append_right _ _ _ _
      (buttonStep_not_mem _ (by decide) (by decide))
      (buttonStep_not_mem _ (by decide) (by decide)),
      notified_append _ _ _ _
      (buttonStep_not_mem _ (by decide) (by decide))
      (buttonStep_not_mem _ (by decide) (by decide))]
    exact buttonStep_notified _ _ _ _
  · simp only [List.append_assoc]
    rw [notified_append_right _ _ _ _
      (buttonStep_not_mem _ (by decide) (by decide))
      (buttonStep_not_mem _ (by decide) (by decide)),
      notified_append_right _ _ _ _
      (buttonStep_not_mem _ (by decide) (by decide))
      (buttonStep_not_mem _ (by decide) (by decide)),
      notified_append_right _ _ _ _
      (buttonStep_not_mem _ (by decide) (by decide))
      (buttonStep_not_mem _ (by decide) (by decide))]
    exact buttonStep_notified _ _ _ _

/-- Witness for C9 at a concrete observation and registry state. -/
theorem C9_witness :
    8 ≤ (["1000", "23.5", "7.1", "6.8", "1", "0", "0", "0", "0"] : List String).length ∧
    ∃ bs2 msgs, handleButtonData ⟨"0", "0", "0", "0", "0"⟩
        ["1000", "23.5", "7.1", "6.8", "1", "0", "0", "0", "0"] = some (bs2, msgs) ∧
      bs2.pump = (["1000", "23.5", "7.1", "6.8", "1", "0", "0", "0", "0"] : List String).getD 4 "" ∧
      bs2.aerator = (["1000", "23.5", "7.1", "6.8", "1", "0", "0", "0", "0"] : List String).getD 5 "" ∧
      bs2.lights = (["1000", "23.5", "7.1", "6.8", "1", "0", "0", "0", "0"] : List String).getD 6 "" ∧
      bs2.plug4 = (["1000", "23.5", "7.1", "6.8", "1", "0", "0", "0", "0"] : List String).getD 7 "" ∧
      (("Pump turned on" ∈ msgs ∨ "Pump turned off" ∈ msgs) ↔
        ("0" : String) ≠ (["1000", "23.5", "7.1", "6.8", "1", "0", "0", "0", "0"] : List String).getD 4 "") ∧
      (("Aerator turned on" ∈ msgs ∨ "Aerator turned off" ∈ msgs) ↔
        ("0" : String) ≠ (["1000", "23.5", "7.1", "6.8", "1", "0", "0", "0", "0"] : List String).getD 5 "") ∧
      (("Lights turned on" ∈ msgs ∨ "Lights turned off" ∈ msgs) ↔
        ("0" : String) ≠ (["1000", "23.5", "7.1", "6.8", "1", "0", "0", "0", "0"] : List String).getD 6 "") ∧
      (("Plug 4 turned on" ∈ msgs ∨ "Plug 4 turned off" ∈ msgs) ↔
        ("0" : String) ≠ (["1000", "23.5", "7.1", "6.8", "1", "0", "0", "0", "0"] : List String).getD 7 "") :=
  ⟨by decide, C9_edge_triggered ⟨"0", "0", "0", "0", "0"⟩
    ["1000", "23.5", "7.1", "6.8", "1", "0", "0", "0", "0"] (by decide)⟩

/-! ## Claim C2: compaction postcondition -/

/-- Claim C2 states the compaction postcondition for every input log
file.  It fails on a file whose first field does not parse as an int:
int(data[0]) raises an uncaught ValueError before validation is ever
consulted, so cleanFileData produces no output file at all (none), while
the claimed postcondition would be the empty filtered file (the line
fails the keep condition). -/
theorem C2_counterexample :
    cleanFileData ["x,1,1,1,1,1,1,1,1"] 100 7200 = none ∧
    (((["x,1,1,1,1,1,1,1,1"] : List String).map pyRstrip).filter
      (cleanKeepSpec 100 7200)) = [] := by
  constructor
  · decide
  · decide

/-- Claim C2 (amended): for every input log file each of whose lines has
an int-parsable first field, cleanFileData completes and produces exactly
the (rstripped) input lines whose record is younger than the retention
window and passes validation, in their original order. -/
theorem C2_compaction (lines : List String) (now retention : ℤ)
    (h : ∀ l ∈ lines,
      (pyIntOfString ((pySplitComma (pyRstrip l)).getD 0 "")).isSome = true) :
    cleanFileData lines now retention =
      some ((lines.map pyRstrip).filter (cleanKeepSpec now retention)) := by
  induction lines with
  | nil => rfl
  | cons l rest ih =>
    have hl := h l (List.mem_cons_self l rest)
    have hrest := ih (fun x hx => h x (List.mem_cons_of_mem _ hx))
    simp only [cleanFileData]
    split
    · rename_i heq
      rw [heq] at hl
      exact absurd hl (by decide)
    · rename_i ts heq
      have hkeq : cleanKeepSpec now retention (pyRstrip l) =
          (decide (now - ts < retention) &&
            validateFileData (pySplitComma (pyRstrip l))) := by
        unfold cleanKeepSpec
        rw [heq]
      rw [List.map_cons, List.filter_cons]
      by_cases h1 : now - ts < retention
      · by_cases h2 : validateFileData (pySplitComma (pyRstrip l)) = true
        · rw [if_pos h1, if_pos h2, hrest, if_pos (by rw [hkeq]; simp [h1, h2])]
          rfl
        · rw [if_pos h1, if_neg h2, hrest, if_neg (by rw [hkeq]; simp [h2])]
      · rw [if_neg h1, hrest, if_neg (by rw [hkeq]; simp [h1])]

/-- Witness for C2 at a concrete two-line file (one valid line kept, one
malformed line dropped). -/
theorem C2_witness :
    (∀ l ∈ (["0,1,1,1,1,1,1,1,1", "0,bad"] : List String),
      (pyIntOfString ((pySplitComma (pyRstrip l)).getD 0 "")).isSome = true) ∧
    cleanFileData ["0,1,1,1,1,1,1,1,1", "0,bad"] 100 7200 =
      some (((["0,1,1,1,1,1,1,1,1", "0,bad"] : List String).map pyRstrip).filter
        (cleanKeepSpec 100 7200)) :=
  ⟨by decide, C2_compaction ["0,1,1,1,1,1,1,1,1", "0,bad"] 100 7200 (by decide)⟩

/-! ## Claim C8: compaction idempotence -/

/-- Claim C8: compaction is idempotent — if a run of cleanFileData
completes and yields a file, running it again on that file with the same
now yields the same file (every kept line is kept again). -/
theorem C8_compaction_idem (lines : List String) (now retention : ℤ)
    (out : List String)
    (h : cleanFileData lines now retention = some out) :
    cleanFileData out now retention = some out := by
  induction lines generalizing out with
  | nil =>
    unfold cleanFileData at h
    rw [Option.some.injEq] at h
    rw [← h]
    rfl
  | cons l rest ih =>
    simp only [cleanFileData] at h
    split at h
    · exact Option.noConfusion h
    · rename_i ts heq
      by_cases h1 : now - ts < retention
      · by_cases h2 : validateFileData (pySplitComma (pyRstrip l)) = true
        · rw [if_pos h1, if_pos h2] at h
          cases hr : cleanFileData rest now retention with
          | none => rw [hr] at h; exact Option.noConfusion h
          | some out2 =>
            rw [hr] at h
            simp only [Option.map_some', Option.some.injEq] at h
            rw [← h]
            simp only [cleanFileData]
            rw [pyRstrip_idem]
            split
            · rename_i heq2
              rw [heq] at heq2
              exact Option.noConfusion heq2
            · rename_i ts2 heq2
              rw [heq, Option.some.injEq] at heq2
              rw [← heq2, if_pos h1, if_pos h2, ih out2 hr]
              rfl
        · rw [if_pos h1, if_neg h2] at h
          exact ih out h
      · rw [if_neg h1] at h
        exact ih out h

/-- Witness for C8: the first run drops a stale record; the kept line is
stable under a second run. -/
theorem C8_witness :
    cleanFileData ["0,1,1,1,1,1,1,1,1", "99000,1,1,1,1,1,1,1,1"] 100000 7200 =
      some ["99000,1,1,1,1,1,1,1,1"] ∧
    cleanFileData ["99000,1,1,1,1,1,1,1,1"] 100000 7200 =
      some ["99000,1,1,1,1,1,1,1,1"] :=
  ⟨by decide,
    C8_compaction_idem ["0,1,1,1,1,1,1,1,1", "99000,1,1,1,1,1,1,1,1"] 100000 7200
      ["99000,1,1,1,1,1,1,1,1"] (by decide)⟩

/-! ## Claim C4: Window Cache trim contract -/

/-- The trim loop drops exactly the longest prefix of strictly-expired
timestamps. -/
lemma trimPlotGo_t (now retention : ℤ) (tl : List ℤ) (a b c : List PyFloat) :
    (trimPlotGo now retention tl a b c).t =
      tl.dropWhile (fun ts => decide (now - ts > retention)) := by
  induction tl generalizing a b c with
  | nil => rfl
  | cons ts rest ih =>
    rw [List.dropWhile_cons]
    unfold trimPlotGo
    by_cases hc : now - ts > retention
    · rw [if_pos hc, ih, if_pos (by simpa using hc)]
    · rw [if_neg hc, if_neg (by simpa using hc)]

lemma trimPlot_t (now retention : ℤ) (pd : PlotData) :
    (trimPlot now retention pd).t =
      pd.t.dropWhile (fun ts => decide (now - ts > retention)) :=
  trimPlotGo_t now retention pd.t pd.temp pd.ph pd.dox

/-- Claim C4 states that trimExpired removes head records while
now - head.timestamp >= retentionSeconds.  The comparison in the code is
strict: a head record whose age equals the retention window exactly is
kept, not removed. -/
theorem C4_counterexample :
    (trimPlot 130 120
      ⟨[10], [PyFloat.finite 1], [PyFloat.finite 1], [PyFloat.finite 1]⟩).t = [10] ∧
    (130 : ℤ) - 10 ≥ 120 := by
  constructor
  · decide
  · decide

/-- Claim C4 (amended): the trim loop removes records from the head of
the cache while now - head.timestamp is strictly greater than
retentionSeconds and stops at the first non-expired entry (a dropWhile of
the head); Scenario A holds as stated: appending records at t = 0, 60,
130 with retentionSeconds = 120 and trimming at now = 130 leaves exactly
the records at t = 60 and t = 130. -/
theorem C4_trim_contract :
    (∀ (now retention : ℤ) (pd : PlotData),
      (trimPlot now retention pd).t =
        pd.t.dropWhile (fun ts => decide (now - ts > retention))) ∧
    (Option.bind (handlePlotData emptyPlot ⟨"0", "0", "0"⟩
        ["0", "1", "2", "3", "1", "0", "0", "0", "0"] 0 120)
      (fun s1 => Option.bind (handlePlotData s1.1 s1.2
          ["60", "1", "2", "3", "1", "0", "0", "0", "0"] 60 120)
        (fun s2 => handlePlotData s2.1 s2.2
          ["130", "1", "2", "3", "1", "0", "0", "0", "0"] 130 120)) =
      some (⟨[60, 130], [PyFloat.finite 1, PyFloat.finite 1],
        [PyFloat.finite 2, PyFloat.finite 2], [PyFloat.finite 3, PyFloat.finite 3]⟩,
        ⟨"1", "2", "3"⟩)) :=
  ⟨trimPlot_t, by decide⟩

/-! ## Claim C5: Window Cache invariant -/

lemma cacheStep_trim (retention now : ℤ) (pd : PlotData) :
    cacheStep retention pd (CacheOp.trim now) = trimPlot now retention pd := rfl

lemma cacheStep_app_t (retention ts : ℤ) (v1 v2 v3 : PyFloat) (pd : PlotData) :
    (cacheStep retention pd (CacheOp.app ts v1 v2 v3)).t = pd.t ++ [ts] := rfl

lemma execCache_cons (retention : ℤ) (pd : PlotData) (op : CacheOp)
    (ops : List CacheOp) :
    execCache retention pd (op :: ops) =
      execCache retention (cacheStep retention pd op) ops := rfl

lemma appT_cons_app (ts : ℤ) (v1 v2 v3 : PyFloat) (ops : List CacheOp) :
    appT (CacheOp.app ts v1 v2 v3 :: ops) = ts :: appT ops := rfl

lemma appT_cons_trim (now : ℤ) (ops : List CacheOp) :
    appT (CacheOp.trim now :: ops) = appT ops := rfl

/-- The trim loop is a drop of the same number of entries from all four
columns. -/
lemma trimPlotGo_drop (now retention : ℤ) (tl : List ℤ) (a b c : List PyFloat) :
    ∃ j, j ≤ tl.length ∧
      trimPlotGo now retention tl a b c = ⟨tl.drop j, a.drop j, b.drop j, c.drop j⟩ := by
  induction tl generalizing a b c with
  | nil => exact ⟨0, Nat.le_refl 0, rfl⟩
  | cons ts rest ih =>
    by_cases hc : now - ts > retention
    · obtain ⟨j, hj, heq⟩ := ih a.tail b.tail c.tail
      refine ⟨j + 1, by simpa using hj, ?_⟩
      unfold trimPlotGo
      rw [if_pos hc, heq]
      simp only [PlotData.mk.injEq]
      refine ⟨by rw [List.drop_succ_cons], ?_, ?_, ?_⟩ <;>
        rw [← List.drop_one, List.drop_drop, Nat.add_comm]
    · refine ⟨0, Nat.zero_le _, ?_⟩
      unfold trimPlotGo
      rw [if_neg hc]
      simp

lemma trimPlot_drop (now retention : ℤ) (pd : PlotData) :
    ∃ j, j ≤ pd.t.length ∧
      trimPlot now retention pd =
        ⟨pd.t.drop j, pd.temp.drop j, pd.ph.drop j, pd.dox.drop j⟩ :=
  trimPlotGo_drop now retention pd.t pd.temp pd.ph pd.dox

/-- Every timestamp in the cache after a sequence of operations was
either there before or was appended by one of the operations. -/
lemma execCache_t_mem (retention : ℤ) (ops : List CacheOp) (pd : PlotData)
    (x : ℤ) (h : x ∈ (execCache retention pd ops).t) :
    x ∈ pd.t ∨ x ∈ appT ops := by
  induction ops generalizing pd with
  | nil => exact Or.inl h
  | cons op rest ih =>
    rw [execCache_cons] at h
    rcases ih (cacheStep retention pd op) h with h2 | h2
    · cases op with
      | app ts v1 v2 v3 =>
        rcases List.mem_append.mp h2 with h3 | h3
        · exact Or.inl h3
        · rw [List.mem_singleton] at h3
          subst h3
          exact Or.inr (List.mem_cons_self _ _)
      | trim now =>
        rw [cacheStep_trim, trimPlot_t] at h2
        exact Or.inl ((List.dropWhile_sublist _).subset h2)
    · cases op with
      | app ts v1 v2 v3 =>
        exact Or.inr (List.mem_cons_of_mem _ h2)
      | trim now =>
        exact Or.inr h2

/-- The cache's timestamp column stays sorted along any time-monotone
sequence of operations. -/
lemma execCache_t_sorted (retention : ℤ) (ops : List CacheOp) (pd : PlotData)
    (hsort : pd.t.Pairwise (· ≤ ·))
    (hub : ∀ x ∈ pd.t, ∀ op ∈ ops, x ≤ opTime op)
    (hmono : (ops.map opTime).Pairwise (· ≤ ·)) :
    (execCache retention pd ops).t.Pairwise (· ≤ ·) := by
  induction ops generalizing pd with
  | nil => exact hsort
  | cons op rest ih =>
    rw [List.map_cons, List.pairwise_cons] at hmono
    rw [execCache_cons]
    apply ih (cacheStep retention pd op)
    · cases op with
      | app ts v1 v2 v3 =>
        rw [cacheStep_app_t, List.pairwise_append]
        refine ⟨hsort, List.pairwise_singleton _ _, fun x hx y hy => ?_⟩
        rw [List.mem_singleton] at hy
        subst hy
        exact hub x hx _ (List.mem_cons_self _ _)
      | trim now =>
        rw [cacheStep_trim, trimPlot_t]
        exact List.Pairwise.sublist (List.dropWhile_sublist _) hsort
    · intro x hx op2 hop2
      cases op with
      | app ts v1 v2 v3 =>
        rw [cacheStep_app_t] at hx
        rcases List.mem_append.mp hx with h3 | h3
        · exact hub x h3 op2 (List.mem_cons_of_mem _ hop2)
        · rw [List.mem_singleton] at h3
          subst h3
          exact hmono.1 _ (List.mem_map_of_mem _ hop2)
      | trim now =>
        rw [cacheStep_trim, trimPlot_t] at hx
        exact hub x ((List.dropWhile_sublist _).subset hx) op2
          (List.mem_cons_of_mem _ hop2)
    · exact hmono.2

/-- In a sorted list, every survivor of the strict-age dropWhile is at
most retention old. -/
lemma mem_dropWhile_age (now retention : ℤ) (l : List ℤ)
    (hsort : l.Pairwise (· ≤ ·)) (x : ℤ)
    (hx : x ∈ l.dropWhile (fun ts => decide (now - ts > retention))) :
    now - x ≤ retention := by
  induction l with
  | nil => simp at hx
  | cons a tl ih =>
    rw [List.pairwise_cons] at hsort
    rw [List.dropWhile_cons] at hx
    split at hx
    · exact ih hsort.2 hx
    · rename_i hc
      simp only [decide_eq_true_eq] at hc
      rcases List.mem_cons.mp hx with rfl | hmem
      · omega
      · have := hsort.1 x hmem
        omega

/-- The cache after any operation sequence is a common-index suffix of
the four appended-history columns. -/
lemma execCache_cols (retention : ℤ) (ops : List CacheOp) (pd : PlotData)
    (h1 : pd.temp.length = pd.t.length) (h2 : pd.ph.length = pd.t.length)
    (h3 : pd.dox.length = pd.t.length) :
    ∃ k, execCache retention pd ops =
      ⟨(pd.t ++ appT ops).drop k, (pd.temp ++ appV1 ops).drop k,
        (pd.ph ++ appV2 ops).drop k, (pd.dox ++ appV3 ops).drop k⟩ := by
  induction ops generalizing pd with
  | nil =>
    refine ⟨0, ?_⟩
    cases pd
    simp [execCache, appT, appV1, appV2, appV3]
  | cons op rest ih =>
    cases op with
    | app ts v1 v2 v3 =>
      obtain ⟨k, hk⟩ := ih ⟨pd.t ++ [ts], pd.temp ++ [v1], pd.ph ++ [v2], pd.dox ++ [v3]⟩
        (by simp [h1]) (by simp [h2]) (by simp [h3])
      refine ⟨k, ?_⟩
      rw [execCache_cons]
      rw [show cacheStep retention pd (CacheOp.app ts v1 v2 v3) =
        (⟨pd.t ++ [ts], pd.temp ++ [v1], pd.ph ++ [v2], pd.dox ++ [v3]⟩ : PlotData) from rfl]
      rw [hk]
      simp [List.append_assoc, appT, appV1, appV2, appV3]
    | trim now =>
      obtain ⟨j, hj, hjeq⟩ := trimPlot_drop now retention pd
      obtain ⟨k, hk⟩ := ih ⟨pd.t.drop j, pd.temp.drop j, pd.ph.drop j, pd.dox.drop j⟩
        (by simp [h1]) (by simp [h2]) (by simp [h3])
      refine ⟨j + k, ?_⟩
      rw [execCache_cons, cacheStep_trim, hjeq, hk]
      simp only [PlotData.mk.injEq, appT_cons_trim]
      refine ⟨?_, ?_, ?_, ?_⟩
      · rw [← List.drop_append_of_le_length hj, List.drop_drop]
      · rw [← List.drop_append_of_le_length (h1 ▸ hj), List.drop_drop]
        rw [show appV1 (CacheOp.trim now :: rest) = appV1 rest from rfl]
      · rw [← List.drop_append_of_le_length (h2 ▸ hj), List.drop_drop]
        rw [show appV2 (CacheOp.trim now :: rest) = appV2 rest from rfl]
      · rw [← List.drop_append_of_le_length (h3 ▸ hj), List.drop_drop]
        rw [show appV3 (CacheOp.trim now :: rest) = appV3 rest from rfl]

lemma mem_appT {ops : List CacheOp} {x : ℤ} (h : x ∈ appT ops) :
    x ∈ ops.map opTime := by
  unfold appT at h
  rw [List.mem_filterMap] at h
  obtain ⟨op, hop, heq⟩ := h
  cases op with
  | app ts v1 v2 v3 =>
    rw [Option.some.injEq] at heq
    subst heq
    exact List.mem_map_of_mem _ hop
  | trim now => exact Option.noConfusion heq

/-- Claim C5 states that after any append/trim sequence every cached
record satisfies now - timestamp < retentionSeconds.  The strict-greater
trim comparison keeps a record whose age equals the window exactly. -/
theorem C5_counterexample :
    (10 : ℤ) ∈ (execCache 120 emptyPlot
      [CacheOp.app 10 (PyFloat.finite 1) (PyFloat.finite 1) (PyFloat.finite 1),
       CacheOp.trim 130]).t ∧
    ¬((130 : ℤ) - 10 < 120) := by
  constructor
  · decide
  · decide

/-- Claim C5 (amended): after any time-monotone sequence of append and
trimExpired calls from the empty cache, the cache is a contiguous suffix
of the full appended history (all four columns cut at one common index),
and every record still cached satisfies now - timestamp <= retentionSeconds
for the now of every trim performed. -/
theorem C5_cache_invariant (retention : ℤ) (ops : List CacheOp)
    (hR : 0 ≤ retention)
    (hmono : (ops.map opTime).Pairwise (· ≤ ·)) :
    (∃ k, execCache retention emptyPlot ops =
      ⟨(appT ops).drop k, (appV1 ops).drop k, (appV2 ops).drop k,
        (appV3 ops).drop k⟩) ∧
    (∀ now, CacheOp.trim now ∈ ops →
      ∀ x ∈ (execCache retention emptyPlot ops).t, now - x ≤ retention) := by
  constructor
  · obtain ⟨k, hk⟩ := execCache_cols retention ops emptyPlot rfl rfl rfl
    refine ⟨k, ?_⟩
    rw [hk]
    rfl
  · intro now hmem x hx
    obtain ⟨pre, post, hsplit⟩ := List.append_of_mem hmem
    subst hsplit
    have hfold : execCache retention emptyPlot (pre ++ CacheOp.trim now :: post) =
        execCache retention
          (cacheStep retention (execCache retention emptyPlot pre)
            (CacheOp.trim now)) post := by
      unfold execCache
      rw [List.foldl_append]
      rfl
    rw [hfold] at hx
    rw [List.map_append, List.pairwise_append] at hmono
    obtain ⟨hpre, hrest, _⟩ := hmono
    rw [List.map_cons, List.pairwise_cons] at hrest
    obtain ⟨hnow_le, _⟩ := hrest
    rcases execCache_t_mem _ post _ x hx with h2 | h2
    · have hsorted : (execCache retention emptyPlot pre).t.Pairwise (· ≤ ·) :=
        execCache_t_sorted retention pre emptyPlot List.Pairwise.nil
          (by intro y hy; simp [emptyPlot] at hy) hpre
      rw [cacheStep_trim, trimPlot_t] at h2
      exact mem_dropWhile_age now retention _ hsorted x h2
    · have hx2 : x ∈ post.map opTime := mem_appT h2
      have hnx : now ≤ x := hnow_le _ hx2
      omega

/-- Witness for C5: two appends then a trim, with monotone times. -/
theorem C5_witness :
    (0 : ℤ) ≤ 120 ∧
    (([CacheOp.app 0 (PyFloat.finite 1) (PyFloat.finite 1) (PyFloat.finite 1),
        CacheOp.app 60 (PyFloat.finite 1) (PyFloat.finite 1) (PyFloat.finite 1),
        CacheOp.trim 130] : List CacheOp).map opTime).Pairwise (· ≤ ·) ∧
    ((∃ k, execCache 120 emptyPlot
        [CacheOp.app 0 (PyFloat.finite 1) (PyFloat.finite 1) (PyFloat.finite 1),
          CacheOp.app 60 (PyFloat.finite 1) (PyFloat.finite 1) (PyFloat.finite 1),
          CacheOp.trim 130] =
        ⟨(appT [CacheOp.app 0 (PyFloat.finite 1) (PyFloat.finite 1) (PyFloat.finite 1),
            CacheOp.app 60 (PyFloat.finite 1) (PyFloat.finite 1) (PyFloat.finite 1),
            CacheOp.trim 130]).drop k,
          (appV1 [CacheOp.app 0 (PyFloat.finite 1) (PyFloat.finite 1) (PyFloat.finite 1),
            CacheOp.app 60 (PyFloat.finite 1) (PyFloat.finite 1) (PyFloat.finite 1),
            CacheOp.trim 130]).drop k,
          (appV2 [CacheOp.app 0 (PyFloat.finite 1) (PyFloat.finite 1) (PyFloat.finite 1),
            CacheOp.app 60 (PyFloat.finite 1) (PyFloat.finite 1) (PyFloat.finite 1),
            CacheOp.trim 130]).drop k,
          (appV3 [CacheOp.app 0 (PyFloat.finite 1) (PyFloat.finite 1) (PyFloat.finite 1),
            CacheOp.app 60 (PyFloat.finite 1) (PyFloat.finite 1) (PyFloat.finite 1),
            CacheOp.trim 130]).drop k⟩) ∧
      (∀ now, CacheOp.trim now ∈
          [CacheOp.app 0 (PyFloat.finite 1) (PyFloat.finite 1) (PyFloat.finite 1),
            CacheOp.app 60 (PyFloat.finite 1) (PyFloat.finite 1) (PyFloat.finite 1),
            CacheOp.trim 130] →
        ∀ x ∈ (execCache 120 emptyPlot
            [CacheOp.app 0 (PyFloat.finite 1) (PyFloat.finite 1) (PyFloat.finite 1),
              CacheOp.app 60 (PyFloat.finite 1) (PyFloat.finite 1) (PyFloat.finite 1),
              CacheOp.trim 130]).t, now - x ≤ 120)) :=
  ⟨by decide, by decide,
    C5_cache_invariant 120
      [CacheOp.app 0 (PyFloat.finite 1) (PyFloat.finite 1) (PyFloat.finite 1),
        CacheOp.app 60 (PyFloat.finite 1) (PyFloat.finite 1) (PyFloat.finite 1),
        CacheOp.trim 130] (by decide) (by decide)⟩

/-! ## Claim C1: cache-never-ahead-of-log invariant -/

lemma trimRecs_subset (now retention : ℤ) (l : List LogRec) (r : LogRec)
    (h : r ∈ trimRecs now retention l) : r ∈ l := by
  induction l with
  | nil => simp [trimRecs] at h
  | cons a tl ih =>
    unfold trimRecs at h
    split at h
    · exact List.mem_cons_of_mem _ (ih h)
    · exact h

lemma keepRec_false_iff (T retention : ℤ) (r : LogRec) :
    keepRec T retention r = false ↔
      ¬(T - r.1 < retention) ∨ validateFileData (recLine r) = false := by
  unfold keepRec
  by_cases h1 : T - r.1 < retention <;>
    by_cases h2 : validateFileData (recLine r) = true <;>
      simp [h1, h2]

lemma execSys_cons (retention : ℤ) (s : SysState) (e : SysEvent)
    (evs : List SysEvent) :
    execSys retention s (e :: evs) = execSys retention (sysStep retention s e) evs := rfl

lemma sysStep_recv_log (retention t : ℤ) (fields : List String) (s : SysState) :
    (sysStep retention s (SysEvent.recv t fields)).log = s.log ++ [(t, fields)] := rfl

lemma sysStep_recv_cache (retention t : ℤ) (fields : List String) (s : SysState) :
    (sysStep retention s (SysEvent.recv t fields)).cache =
      if cacheAppendOk fields then trimRecs t retention (s.cache ++ [(t, fields)])
      else s.cache := rfl

lemma sysStep_recv_last (retention t : ℤ) (fields : List String) (s : SysState) :
    (sysStep retention s (SysEvent.recv t fields)).lastCompact = s.lastCompact := rfl

lemma sysStep_compact_log (retention t : ℤ) (s : SysState) :
    (sysStep retention s (SysEvent.compact t)).log =
      s.log.filter (keepRec t retention) := rfl

lemma sysStep_compact_cache (retention t : ℤ) (s : SysState) :
    (sysStep retention s (SysEvent.compact t)).cache = s.cache := rfl

lemma sysStep_compact_last (retention t : ℤ) (s : SysState) :
    (sysStep retention s (SysEvent.compact t)).lastCompact = some t := rfl

/-- The cache/log relation maintained by the system: every cached record
is in the log, or compaction has run and the record already fails the
compaction keep condition at the recorded compaction time. -/
def cacheLogInv (retention : ℤ) (s : SysState) : Prop :=
  ∀ r ∈ s.cache, r ∈ s.log ∨
    ∃ T, s.lastCompact = some T ∧ keepRec T retention r = false

lemma sysInv_preserved (retention : ℤ) (evs : List SysEvent) (s : SysState)
    (hmono : (evs.map evTime).Pairwise (· ≤ ·))
    (hlb : ∀ T, s.lastCompact = some T → ∀ e ∈ evs, T ≤ evTime e)
    (hinv : cacheLogInv retention s) :
    cacheLogInv retention (execSys retention s evs) := by
  induction evs generalizing s with
  | nil => exact hinv
  | cons e rest ih =>
    rw [List.map_cons, List.pairwise_cons] at hmono
    rw [execSys_cons]
    apply ih (sysStep retention s e) hmono.2
    · intro T hT e2 he2
      cases e with
      | recv t fields =>
        rw [sysStep_recv_last] at hT
        exact hlb T hT e2 (List.mem_cons_of_mem _ he2)
      | compact t =>
        rw [sysStep_compact_last, Option.some.injEq] at hT
        subst hT
        exact hmono.1 _ (List.mem_map_of_mem _ he2)
    · intro r hr
      cases e with
      | recv t fields =>
        rw [sysStep_recv_cache] at hr
        rw [sysStep_recv_log, sysStep_recv_last]
        split at hr
        · have hr2 : r ∈ s.cache ++ [(t, fields)] := trimRecs_subset _ _ _ _ hr
          rcases List.mem_append.mp hr2 with h3 | h3
          · rcases hinv r h3 with h4 | ⟨T, hT, hk⟩
            · exact Or.inl (List.mem_append_of_mem_left _ h4)
            · exact Or.inr ⟨T, hT, hk⟩
          · rw [List.mem_singleton] at h3
            subst h3
            exact Or.inl (List.mem_append_of_mem_right _ (List.mem_singleton_self _))
        · rcases hinv r hr with h4 | ⟨T, hT, hk⟩
          · exact Or.inl (List.mem_append_of_mem_left _ h4)
          · exact Or.inr ⟨T, hT, hk⟩
      | compact t =>
        rw [sysStep_compact_cache] at hr
        rw [sysStep_compact_log, sysStep_compact_last]
        rcases hinv r hr with h4 | ⟨T, hT, hk⟩
        · by_cases hkeep : keepRec t retention r = true
          · exact Or.inl (List.mem_filter.mpr ⟨h4, hkeep⟩)
          · refine Or.inr ⟨t, rfl, ?_⟩
            revert hkeep
            cases keepRec t retention r <;> simp
        · refine Or.inr ⟨t, rfl, ?_⟩
          have hTt : T ≤ t := hlb T hT _ (List.mem_cons_self _ _)
          rw [keepRec_false_iff] at hk
          rw [keepRec_false_iff]
          rcases hk with hk | hk
          · left
            omega
          · right
            exact hk

/-- Claim C1 states that every record in the Window Cache is also in the
Durable Log at every point, including across compaction cycles.  It is
false: compaction drops a record whose age equals the retention window
(keep condition now - ts < retention), while the cache trim keeps it
(evict condition now - ts > retention), so right after a compaction the
cache holds a record the log no longer contains. -/
theorem C1_counterexample :
    ((0 : ℤ), ["23", "7", "6", "1", "0", "0", "0", "0"]) ∈
      (execSys 7200 sysInit
        [SysEvent.recv 0 ["23", "7", "6", "1", "0", "0", "0", "0"],
         SysEvent.compact 7200]).cache ∧
    ((0 : ℤ), ["23", "7", "6", "1", "0", "0", "0", "0"]) ∉
      (execSys 7200 sysInit
        [SysEvent.recv 0 ["23", "7", "6", "1", "0", "0", "0", "0"],
         SysEvent.compact 7200]).log := by
  constructor
  · decide
  · decide

/-- Claim C1 (amended): in every execution with nondecreasing event
times, every record in the Window Cache is in the Durable Log unless a
compaction has run and the record already failed the compaction keep
condition (too old, or invalid) at the most recent compaction time.  In
particular the log-append always precedes the cache-append of a record,
so the cache can only run ahead of the log through compaction. -/
theorem C1_cache_log (retention : ℤ) (evs : List SysEvent)
    (hmono : (evs.map evTime).Pairwise (· ≤ ·)) :
    ∀ r ∈ (execSys retention sysInit evs).cache,
      r ∈ (execSys retention sysInit evs).log ∨
        ∃ T, (execSys retention sysInit evs).lastCompact = some T ∧
          keepRec T retention r = false :=
  sysInv_preserved retention evs sysInit hmono
    (fun _ hT => Option.noConfusion hT)
    (fun r hr => absurd hr (List.not_mem_nil r))

/-- Witness for C1 on the counterexample execution itself: there the
cached record is exactly one that compaction dropped as expired. -/
theorem C1_witness :
    (([SysEvent.recv 0 ["23", "7", "6", "1", "0", "0", "0", "0"],
        SysEvent.compact 7200] : List SysEvent).map evTime).Pairwise (· ≤ ·) ∧
    ∀ r ∈ (execSys 7200 sysInit
        [SysEvent.recv 0 ["23", "7", "6", "1", "0", "0", "0", "0"],
         SysEvent.compact 7200]).cache,
      r ∈ (execSys 7200 sysInit
          [SysEvent.recv 0 ["23", "7", "6", "1", "0", "0", "0", "0"],
           SysEvent.compact 7200]).log ∨
        ∃ T, (execSys 7200 sysInit
            [SysEvent.recv 0 ["23", "7", "6", "1", "0", "0", "0", "0"],
             SysEvent.compact 7200]).lastCompact = some T ∧
          keepRec T 7200 r = false :=
  ⟨by decide, C1_cache_log 7200
    [SysEvent.recv 0 ["23", "7", "6", "1", "0", "0", "0", "0"],
     SysEvent.compact 7200] (by decide)⟩

end PlotGUI
